import Mathlib

/-!
Verification of the NeonRaspi client core (src/frontend/js/app.js): the
reconnect-with-backoff connection manager, the typed message dispatcher,
the application state machine, and the hex audio decoder.  Each JS
function is shallowly embedded as an executable Lean definition; DOM
writes are modelled as fields of an explicit state record.
-/

namespace NeonRaspi

/-- JS line terminators, the characters the regex dot does not match:
LF, CR, U+2028, U+2029. -/
def isLineTerm (c : Char) : Bool :=
  c.toNat = 10 || c.toNat = 13 || c.toNat = 8232 || c.toNat = 8233

/-- JS whitespace trimmed by parseInt: TAB, LF, VT, FF, CR, SPACE, NBSP,
BOM (the remaining Unicode space separators are irrelevant to one or two
character chunks of hex payloads and are omitted). -/
def isJsWhitespace (c : Char) : Bool :=
  c.toNat = 9 || c.toNat = 10 || c.toNat = 11 || c.toNat = 12 ||
  c.toNat = 13 || c.toNat = 32 || c.toNat = 160 || c.toNat = 65279

/-- Value of a hexadecimal digit character (0-9, a-f, A-F), none otherwise. -/
def hexDigitVal? (c : Char) : Option Nat :=
  if 48 ≤ c.toNat && c.toNat ≤ 57 then some (c.toNat - 48)
  else if 97 ≤ c.toNat && c.toNat ≤ 102 then some (c.toNat - 87)
  else if 65 ≤ c.toNat && c.toNat ≤ 70 then some (c.toNat - 55)
  else none

/-- Embedding of the JS call hexData.match with the global pattern of one
or two dots (app.js line 358): greedily match two non-line-terminator
characters, else one, skipping unmatchable positions.  The JS call
returns null exactly when the result here is the empty list. -/
def jsMatchChunks : List Char → List (List Char)
  | [] => []
  | c :: rest =>
    if isLineTerm c then jsMatchChunks rest
    else
      match rest with
      | [] => [[c]]
      | d :: rest2 =>
        if isLineTerm d then [c] :: jsMatchChunks rest2
        else [c, d] :: jsMatchChunks rest2

/-- Longest-prefix hex accumulation, continuing an already parsed value:
the tail digits consumed by JS parseInt after its first digit. -/
def hexAccum (acc : Nat) : List Char → Nat
  | [] => acc
  | c :: rest =>
    match hexDigitVal? c with
    | some v => hexAccum (acc * 16 + v) rest
    | none => acc

/-- Longest prefix of hex digits as a number; none when the first
character is not a hex digit (JS parseInt then yields NaN). -/
def parseHexDigits : List Char → Option Nat
  | [] => none
  | c :: rest =>
    match hexDigitVal? c with
    | some v => some (hexAccum v rest)
    | none => none

/-- Embedding of JS parseInt(s, 16): trim whitespace, optional sign,
optional 0x or 0X prefix, then the longest hex-digit prefix; none models
NaN. -/
def parseIntHex16 (s : List Char) : Option Int :=
  let s1 := s.dropWhile (fun c => isJsWhitespace c)
  let sgn : Int :=
    match s1 with
    | c :: _ => if c = '-' then -1 else 1
    | [] => 1
  let s2 : List Char :=
    match s1 with
    | c :: r => if c = '-' || c = '+' then r else s1
    | [] => []
  let s3 : List Char :=
    match s2 with
    | a :: b :: r => if a = '0' && (b = 'x' || b = 'X') then r else s2
    | _ => s2
  match parseHexDigits s3 with
  | some v => some (sgn * (v : Int))
  | none => none

/-- The coercion a Uint8Array element constructor applies to each mapped
value (app.js line 358): NaN becomes 0, integers are reduced mod 256. -/
def toUint8 : Option Int → Nat
  | none => 0
  | some i => (i % 256).toNat

/-- Embedding of the decode step of playAudio (app.js line 358):
chunk the payload into one or two character pieces, parse each as hex,
coerce each to a byte.  none models the thrown TypeError when match
returns null (no matchable character), which the surrounding try or
catch turns into an abandoned playback request. -/
def jsDecodeHex (s : String) : Option (List Nat) :=
  match jsMatchChunks s.data with
  | [] => none
  | chunks => some (chunks.map (fun ch => toUint8 (parseIntHex16 ch)))

/-- Modelled from the spec: the server-side hex encoder is not part of
this repository; per the spec each byte becomes two hex digits, high
nibble first. -/
def hexChar (n : Nat) : Char :=
  Char.ofNat (if n < 10 then 48 + n else 87 + n)

/-- Modelled from the spec: even-length hexadecimal representation of a
byte sequence, each adjacent digit pair one byte, high nibble first. -/
def encodeHexBytes (bytes : List Nat) : String :=
  String.mk (bytes.flatMap (fun b => [hexChar (b / 16), hexChar (b % 16)]))

/-! ## Connection Manager (app.js lines 63-114)

The WebSocket connection state machine: the module-level ws variable,
reconnectAttempts counter, and the onopen and onclose handlers.  A
constructed socket is identified by a fresh number; readyState of the
current socket is tracked; scheduled reconnect delays are logged in
order (the setTimeout of app.js line 92). -/

/-- readyState of the current WebSocket. -/
inductive WsReadyState where
  | CONNECTING
  | OPEN
  | CLOSING
  | CLOSED
deriving DecidableEq, Repr

/-- State owned by the connection manager: current socket (by identity),
a counter of sockets ever constructed (for fresh identities), the
readyState of the current socket, the state.connected flag,
reconnectAttempts, and the log of scheduled reconnect delays. -/
structure ConnState where
  ws : Option Nat
  nextSocketId : Nat
  wsState : Option WsReadyState
  connected : Bool
  reconnectAttempts : Nat
  scheduled : List Nat
deriving DecidableEq, Repr

/-- app.js line 65: const maxReconnectAttempts = 10. -/
def maxReconnectAttempts : Nat := 10

/-- Embedding of connectWebSocket (app.js lines 67-108) up to handler
registration: it unconditionally constructs a new WebSocket from the
page origin and overwrites ws with it; a fresh WebSocket starts in
readyState CONNECTING.  There is no guard consulting the previous
socket or the connection state. -/
def connectWebSocket (cs : ConnState) : ConnState :=
  { cs with
    ws := some cs.nextSocketId
    nextSocketId := cs.nextSocketId + 1
    wsState := some WsReadyState.CONNECTING }

/-- Embedding of the ws.onopen handler (app.js lines 75-80):
state.connected := true, reconnectAttempts := 0. -/
def wsOnOpen (cs : ConnState) : ConnState :=
  { cs with
    connected := true
    reconnectAttempts := 0
    wsState := some WsReadyState.OPEN }

/-- Embedding of the ws.onclose handler (app.js lines 82-94):
state.connected := false; if reconnectAttempts < maxReconnectAttempts
then increment the counter and schedule a reconnect after
min(1000 * 2 ^ incrementedCounter, 30000) milliseconds. -/
def wsOnClose (cs : ConnState) : ConnState :=
  let cs1 := { cs with connected := false, wsState := some WsReadyState.CLOSED }
  if cs1.reconnectAttempts < maxReconnectAttempts then
    let a := cs1.reconnectAttempts + 1
    { cs1 with
      reconnectAttempts := a
      scheduled := cs1.scheduled ++ [min (1000 * 2 ^ a) 30000] }
  else cs1

/-- The delay the code computes for the n-th consecutive failure after a
successful open (the counter has just been incremented to n). -/
def delayFn (n : Nat) : Nat := min (1000 * 2 ^ n) 30000

/-- Apply n consecutive close events, oldest first. -/
def applyCloses : Nat → ConnState → ConnState
  | 0, cs => cs
  | n + 1, cs => applyCloses n (wsOnClose cs)

/-- The connection manager state at page load (app.js lines 9-15, 63-65):
no socket yet, no connection, zero reconnect attempts. -/
def initConnState : ConnState :=
  { ws := none
    nextSocketId := 0
    wsState := none
    connected := false
    reconnectAttempts := 0
    scheduled := [] }

/-! ## Application State Machine and Message Dispatcher
(app.js lines 9-15, 119-412)

The module-level state object together with the DOM writes the handlers
perform, as an explicit record.  DOM text and visibility writes are
fields; the orb transform scale is recorded by the raw level that
drives it (the scale itself is presentational floating point).  The
setTimeout of showError is modelled by a list of pending absolute fire
times together with an ambient clock field now. -/

/-- The now-playing payload of a spotify message (fields read by
updateNowPlaying, app.js lines 273-309). -/
structure NowPlaying where
  is_podcast : Bool
  track_name : Option String
  artist_name : Option String
  episode_name : Option String
  show_name : Option String
  image_url : Option String
  progress_ms : Nat
  duration_ms : Nat
deriving DecidableEq, Repr

/-- One conversation history item (app.js lines 230-238). -/
structure ConversationTurn where
  user : String
  response : Option String
  timestamp : Nat
deriving DecidableEq, Repr

/-- The application state: the JS state object (spotifyConnected,
currentState, nowPlaying, conversationHistory) plus the DOM cells the
handlers write, the current audio source, the ambient clock, and the
pending showError reset timers (absolute fire times). -/
structure AppState where
  now : Nat
  spotifyConnected : Bool
  currentState : String
  statusText : String
  statusSubtitle : String
  transcriptVisible : Bool
  liveUserText : String
  userBubbleShown : Bool
  neonText : String
  neonBubbleShown : Bool
  orbLevel : Option Nat
  nowPlaying : Option NowPlaying
  conversationHistory : List ConversationTurn
  trackName : String
  artistName : String
  albumArtSrc : Option String
  albumLoaded : Bool
  placeholderShown : Bool
  progressShown : Option (Nat × Nat)
  audioSrc : Option (List Nat)
  pendingResets : List Nat
deriving DecidableEq, Repr

/-- Parsed inbound frames: the seven known variants of the protocol plus
a constructor for any frame whose type tag is none of them (the switch
of handleMessage has no default arm). -/
inductive InMsg where
  | connected (spotify_authenticated : Bool)
  | state_update (state : String) (level : Option Nat)
  | transcript (text : String) (isFinal : Bool)
  | response (text : String)
  | spotify (data : Option NowPlaying)
  | audio (data : String)
  | error (message : String)
  | other (tag : String)
deriving DecidableEq, Repr

/-- The type discriminator string of a parsed frame. -/
def InMsg.typeOf : InMsg → String
  | .connected _ => "connected"
  | .state_update _ _ => "state_update"
  | .transcript _ _ => "transcript"
  | .response _ => "response"
  | .spotify _ => "spotify"
  | .audio _ => "audio"
  | .error _ => "error"
  | .other t => t

/-- The seven type tags the switch of handleMessage matches. -/
def knownTypes : List String :=
  ["connected", "state_update", "transcript", "response", "spotify",
   "audio", "error"]

/-- Embedding of visualizeAudioLevel (app.js lines 198-202): records the
level driving the presentational orb scale. -/
def visualizeAudioLevel (level : Nat) (st : AppState) : AppState :=
  { st with orbLevel := some level }

/-- Embedding of updateState (app.js lines 157-196): set
state.currentState, write the status headline and subtitle per the
five-state switch (an unknown state string leaves them unchanged; only
the idle arm hides the transcript container), then the optional audio
level visualization. -/
def updateState (newState : String) (level : Option Nat) (st : AppState) :
    AppState :=
  let st1 := { st with currentState := newState }
  let st2 :=
    if newState = "idle" then
      { st1 with
        statusText := "Say \"Hey Jarvis\" to wake me up"
        statusSubtitle := "Listening for wake word..."
        transcriptVisible := false }
    else if newState = "listening" then
      { st1 with
        statusText := "I\x27m listening..."
        statusSubtitle := "Speak your command" }
    else if newState = "processing" then
      { st1 with
        statusText := "Processing..."
        statusSubtitle := "Understanding your request" }
    else if newState = "thinking" then
      { st1 with
        statusText := "Thinking..."
        statusSubtitle := "Generating response" }
    else if newState = "speaking" then
      { st1 with
        statusText := "Speaking..."
        statusSubtitle := "" }
    else st1
  match level with
  | some l => visualizeAudioLevel l st2
  | none => st2

/-- Embedding of addToHistory (app.js lines 230-238): push a turn with
the current timestamp. -/
def addToHistory (userText : String) (response : Option String)
    (st : AppState) : AppState :=
  { st with
    conversationHistory :=
      st.conversationHistory ++
        [{ user := userText, response := response, timestamp := st.now }] }

/-- Embedding of updateHistoryResponse (app.js lines 240-245): if the
history is non-empty, overwrite the response of its last item. -/
def updateHistoryResponse (response : String) (st : AppState) : AppState :=
  match st.conversationHistory.getLast? with
  | none => st
  | some lastTurn =>
    { st with
      conversationHistory :=
        st.conversationHistory.dropLast ++
          [{ lastTurn with response := some response }] }

/-- Embedding of showTranscript (app.js lines 207-217). -/
def showTranscript (text : String) (isFinal : Bool) (st : AppState) :
    AppState :=
  let st1 :=
    { st with
      transcriptVisible := true
      liveUserText := text
      userBubbleShown := true
      neonBubbleShown := false }
  if isFinal then addToHistory text none st1 else st1

/-- Embedding of showResponse (app.js lines 219-225). -/
def showResponse (text : String) (st : AppState) : AppState :=
  updateHistoryResponse text
    { st with neonText := text, neonBubbleShown := true }

/-- JS truthiness fallback for optional strings: s or a default, the
empty string counting as falsy. -/
def jsStrOr (o : Option String) (dflt : String) : String :=
  match o with
  | some s => if s = "" then dflt else s
  | none => dflt

/-- Embedding of updateNowPlaying (app.js lines 273-309).  On a null
payload the function resets the display cells and returns early,
leaving state.nowPlaying untouched.  On a non-null payload it stores
the snapshot, writes track or episode labels per the podcast flag,
starts loading the album art when an image url is present (its onload
modelled as immediate), and shows progress only when duration_ms is
positive. -/
def updateNowPlaying (data : Option NowPlaying) (st : AppState) : AppState :=
  match data with
  | none =>
    { st with
      trackName := "Not Playing"
      artistName := "Connect to Spotify"
      albumLoaded := false
      placeholderShown := true }
  | some d =>
    let st1 := { st with nowPlaying := some d }
    let st2 :=
      if d.is_podcast then
        { st1 with
          trackName := jsStrOr d.episode_name "Unknown Episode"
          artistName := jsStrOr d.show_name "Podcast" }
      else
        { st1 with
          trackName := jsStrOr d.track_name "Unknown Track"
          artistName := jsStrOr d.artist_name "Unknown Artist" }
    let st3 :=
      match d.image_url with
      | some u =>
        if u = "" then st2
        else
          { st2 with
            albumArtSrc := some u
            albumLoaded := true
            placeholderShown := false }
      | none => st2
    if d.duration_ms > 0 then
      { st3 with progressShown := some (d.progress_ms, d.duration_ms) }
    else st3

/-- Embedding of playAudio (app.js lines 355-377): decode the hex
payload; on success replace the audio source with the decoded bytes and
start playback; the thrown TypeError of a null match is caught and the
playback request abandoned with no state change. -/
def playAudio (hexData : String) (st : AppState) : AppState :=
  match jsDecodeHex hexData with
  | none => st
  | some bs => { st with audioSrc := some bs }

/-- Embedding of showError (app.js lines 403-412): write the error
affordance and schedule updateState idle 3000 milliseconds from now.
Nothing ever cancels this timer. -/
def showError (message : String) (st : AppState) : AppState :=
  { st with
    statusText := "Error"
    statusSubtitle := message
    pendingResets := st.pendingResets ++ [st.now + 3000] }

/-- Embedding of handleMessage (app.js lines 119-152): the switch on
message.type.  A tag matching none of the seven cases falls through the
switch and changes nothing. -/
def handleMessage : InMsg → AppState → AppState
  | .connected sa, st => { st with spotifyConnected := sa }
  | .state_update s lvl, st => updateState s lvl st
  | .transcript t f, st => showTranscript t f st
  | .response t, st => showResponse t st
  | .spotify d, st => updateNowPlaying d st
  | .audio d, st => playAudio d st
  | .error m, st => showError m st
  | .other _, st => st

/-- Fire every pending error-recovery timer due by time t, each firing
performing updateState idle (app.js lines 409-411). -/
def fireDueResets (t : Nat) (st : AppState) : AppState :=
  let due := st.pendingResets.filter (fun f => decide (f ≤ t))
  let st1 := { st with pendingResets := st.pendingResets.filter (fun f => decide (t < f)) }
  due.foldl (fun s _ => updateState "idle" none s) st1

/-- Run a time-ordered list of inbound frames: before each frame is
dispatched, the timers due by its arrival time fire (single-threaded
event loop, timers and messages on one queue). -/
def runEvents : List (Nat × InMsg) → AppState → AppState
  | [], st => st
  | (t, m) :: rest, st =>
    runEvents rest (handleMessage m { fireDueResets t st with now := t })

/-- The application state observed at time t: all frames that arrived by
t dispatched in order, then all timers due by t fired. -/
def stateAt (events : List (Nat × InMsg)) (st0 : AppState) (t : Nat) :
    AppState :=
  fireDueResets t (runEvents (events.filter (fun e => decide (e.1 ≤ t))) st0)

/-- The application state at page load (app.js lines 9-15; display cells
empty, placeholder visible, no audio, no timers). -/
def initState : AppState :=
  { now := 0
    spotifyConnected := false
    currentState := "idle"
    statusText := ""
    statusSubtitle := ""
    transcriptVisible := false
    liveUserText := ""
    userBubbleShown := false
    neonText := ""
    neonBubbleShown := false
    orbLevel := none
    nowPlaying := none
    conversationHistory := []
    trackName := ""
    artistName := ""
    albumArtSrc := none
    albumLoaded := false
    placeholderShown := true
    progressShown := none
    audioSrc := none
    pendingResets := [] }

/-! ## Helper lemmas -/

theorem wsOnClose_attempts_lt (cs : ConnState)
    (h : cs.reconnectAttempts < maxReconnectAttempts) :
    wsOnClose cs =
      { cs with
        connected := false
        wsState := some WsReadyState.CLOSED
        reconnectAttempts := cs.reconnectAttempts + 1
        scheduled := cs.scheduled ++ [delayFn (cs.reconnectAttempts + 1)] } := by
  simp [wsOnClose, delayFn, h]

theorem wsOnClose_attempts_ge (cs : ConnState)
    (h : ¬ cs.reconnectAttempts < maxReconnectAttempts) :
    wsOnClose cs =
      { cs with connected := false, wsState := some WsReadyState.CLOSED } := by
  simp [wsOnClose, h]

theorem applyCloses_spec (m : Nat) : ∀ cs : ConnState,
    cs.reconnectAttempts + m ≤ maxReconnectAttempts →
    (applyCloses m cs).reconnectAttempts = cs.reconnectAttempts + m ∧
    (applyCloses m cs).scheduled =
      cs.scheduled ++
        (List.range m).map (fun i => delayFn (cs.reconnectAttempts + i + 1)) := by
  induction m with
  | zero => intro cs _; simp [applyCloses]
  | succ m ih =>
    intro cs h
    have hlt : cs.reconnectAttempts < maxReconnectAttempts := by omega
    rw [show applyCloses (m + 1) cs = applyCloses m (wsOnClose cs) from rfl,
      wsOnClose_attempts_lt cs hlt]
    obtain ⟨h1, h2⟩ :=
      ih { cs with
            connected := false
            wsState := some WsReadyState.CLOSED
            reconnectAttempts := cs.reconnectAttempts + 1
            scheduled := cs.scheduled ++ [delayFn (cs.reconnectAttempts + 1)] }
        (show cs.reconnectAttempts + 1 + m ≤ maxReconnectAttempts by omega)
    refine ⟨?_, ?_⟩
    · rw [h1]
      show cs.reconnectAttempts + 1 + m = cs.reconnectAttempts + (m + 1)
      omega
    · rw [h2]
      show (cs.scheduled ++ [delayFn (cs.reconnectAttempts + 1)]) ++
          (List.range m).map (fun i => delayFn (cs.reconnectAttempts + 1 + i + 1))
        = cs.scheduled ++
            (List.range (m + 1)).map (fun i => delayFn (cs.reconnectAttempts + i + 1))
      rw [List.append_assoc, List.singleton_append, List.range_succ_eq_map,
        List.map_cons, List.map_map]
      have hfun : ((fun i => delayFn (cs.reconnectAttempts + i + 1)) ∘ Nat.succ)
          = fun i => delayFn (cs.reconnectAttempts + 1 + i + 1) := by
        funext i
        show delayFn (cs.reconnectAttempts + (Nat.succ i) + 1) = _
        congr 1
        omega
      rw [hfun]

theorem applyCloses_add (a b : Nat) : ∀ cs : ConnState,
    applyCloses (a + b) cs = applyCloses b (applyCloses a cs) := by
  induction a with
  | zero => intro cs; rw [Nat.zero_add]; rfl
  | succ a ih =>
    intro cs
    rw [Nat.add_right_comm a 1 b,
      show applyCloses (a + b + 1) cs = applyCloses (a + b) (wsOnClose cs) from rfl,
      ih (wsOnClose cs)]
    rfl

theorem applyCloses_stuck (k : Nat) : ∀ cs : ConnState,
    cs.reconnectAttempts = maxReconnectAttempts →
    (applyCloses k cs).scheduled = cs.scheduled ∧
    (applyCloses k cs).reconnectAttempts = maxReconnectAttempts := by
  induction k with
  | zero => intro cs h; exact ⟨rfl, h⟩
  | succ k ih =>
    intro cs h
    rw [show applyCloses (k + 1) cs = applyCloses k (wsOnClose cs) from rfl,
      wsOnClose_attempts_ge cs (by omega)]
    exact ih _ (show cs.reconnectAttempts = maxReconnectAttempts from h)

/-! ## Claim theorems: Connection Manager -/

/-- C1: for the n-th consecutive failed attempt since the last
successful OPEN (n = 1..10) the scheduled reconnect delay is
min(1000 * 2 ^ n, 30000) ms; the delay sequence is non-decreasing; no
close after the 10th one schedules anything further; a successful OPEN
resets the attempt counter to 0, so the first delay after it is
delayFn 1 = 2000 ms. -/
theorem reconnect_backoff_c1 (cs : ConnState) (n : Nat)
    (h1 : 1 ≤ n) (h2 : n ≤ 10) :
    (applyCloses n (wsOnOpen cs)).scheduled
      = (wsOnOpen cs).scheduled ++ (List.range n).map (fun i => delayFn (i + 1))
  ∧ delayFn n = min (1000 * 2 ^ n) 30000
  ∧ (∀ i j, i ≤ j → delayFn i ≤ delayFn j)
  ∧ (∀ k, (applyCloses (10 + k) (wsOnOpen cs)).scheduled
      = (applyCloses 10 (wsOnOpen cs)).scheduled)
  ∧ (wsOnOpen cs).reconnectAttempts = 0
  ∧ delayFn 1 = 2000 := by
  have hopen : (wsOnOpen cs).reconnectAttempts = 0 := rfl
  refine ⟨?_, rfl, ?_, ?_, rfl, rfl⟩
  · have := (applyCloses_spec n (wsOnOpen cs)
      (by rw [hopen]; simp [maxReconnectAttempts]; omega)).2
    rw [this]
    congr 1
    apply List.map_congr_left
    intro i _
    rw [hopen]
    norm_num
  · intro i j hij
    exact min_le_min (Nat.mul_le_mul_left 1000 (Nat.pow_le_pow_right (by norm_num) hij)) le_rfl
  · intro k
    have h10 : (applyCloses 10 (wsOnOpen cs)).reconnectAttempts = 10 :=
      (applyCloses_spec 10 (wsOnOpen cs) (by rw [hopen]; simp [maxReconnectAttempts])).1
    rw [applyCloses_add 10 k (wsOnOpen cs)]
    exact (applyCloses_stuck k _ (by rw [h10]; rfl)).1

/-- Witness for C1 at the initial state and n = 3. -/
theorem reconnect_backoff_c1_witness :
    (1 ≤ 3 ∧ 3 ≤ 10) ∧
    ((applyCloses 3 (wsOnOpen initConnState)).scheduled
        = (wsOnOpen initConnState).scheduled ++
            (List.range 3).map (fun i => delayFn (i + 1))
      ∧ delayFn 3 = min (1000 * 2 ^ 3) 30000
      ∧ (∀ i j, i ≤ j → delayFn i ≤ delayFn j)
      ∧ (∀ k, (applyCloses (10 + k) (wsOnOpen initConnState)).scheduled
          = (applyCloses 10 (wsOnOpen initConnState)).scheduled)
      ∧ (wsOnOpen initConnState).reconnectAttempts = 0
      ∧ delayFn 1 = 2000) :=
  ⟨⟨by decide, by decide⟩, reconnect_backoff_c1 initConnState 3 (by decide) (by decide)⟩

/-- C2 counterexample: at the first close after a successful OPEN the
attempt counter is 0, yet the scheduled delay is 2000 ms, not the
min(1000 * 2 ^ 0, 30000) = 1000 ms the claim derives from the
pre-increment counter. -/
theorem reconnect_delay_c2_counterexample :
    (wsOnOpen initConnState).reconnectAttempts = 0
  ∧ (wsOnClose (wsOnOpen initConnState)).scheduled = [2000]
  ∧ ¬ (wsOnClose (wsOnOpen initConnState)).scheduled = [1000] := by decide

/-- C2 amended: on a close with AttemptCounter = c < 10 the counter is
incremented first and the reconnect is scheduled after
min(1000 * 2 ^ (c + 1), 30000) ms; the first reconnect after a
successful OPEN is scheduled after 2000 ms. -/
theorem reconnect_delay_c2_amended (cs : ConnState)
    (h : cs.reconnectAttempts < maxReconnectAttempts) :
    (wsOnClose cs).scheduled
      = cs.scheduled ++ [min (1000 * 2 ^ (cs.reconnectAttempts + 1)) 30000]
  ∧ (wsOnClose cs).reconnectAttempts = cs.reconnectAttempts + 1
  ∧ (wsOnClose (wsOnOpen cs)).scheduled = (wsOnOpen cs).scheduled ++ [2000] := by
  rw [wsOnClose_attempts_lt cs h,
    wsOnClose_attempts_lt (wsOnOpen cs) (by simp [wsOnOpen, maxReconnectAttempts])]
  refine ⟨rfl, rfl, ?_⟩
  simp [wsOnOpen, delayFn]

/-- Witness for the amended C2 at the initial state. -/
theorem reconnect_delay_c2_amended_witness :
    initConnState.reconnectAttempts < maxReconnectAttempts ∧
    ((wsOnClose initConnState).scheduled
        = initConnState.scheduled ++
            [min (1000 * 2 ^ (initConnState.reconnectAttempts + 1)) 30000]
      ∧ (wsOnClose initConnState).reconnectAttempts
          = initConnState.reconnectAttempts + 1
      ∧ (wsOnClose (wsOnOpen initConnState)).scheduled
          = (wsOnOpen initConnState).scheduled ++ [2000]) :=
  ⟨by decide, reconnect_delay_c2_amended initConnState (by decide)⟩

/-- A connection-manager state whose current socket is OPEN. -/
def openConnState : ConnState :=
  { ws := some 0
    nextSocketId := 1
    wsState := some WsReadyState.OPEN
    connected := true
    reconnectAttempts := 0
    scheduled := [] }

/-- C3 counterexample: with the socket OPEN, a second call to
connectWebSocket is not rejected: it constructs a new transport
endpoint and replaces the stored socket. -/
theorem open_guard_c3_counterexample :
    openConnState.wsState = some WsReadyState.OPEN
  ∧ (connectWebSocket openConnState).ws = some 1
  ∧ openConnState.ws = some 0
  ∧ connectWebSocket openConnState ≠ openConnState := by decide

/-- C3 amended: a second call to open() is never rejected, in any
connection state: it constructs a fresh transport endpoint and replaces
the stored socket (readyState back to CONNECTING), leaving the attempt
counter, connected flag and scheduled delays unchanged. -/
theorem open_no_guard_c3_amended (cs : ConnState)
    (h : ∀ i, cs.ws = some i → i < cs.nextSocketId) :
    (connectWebSocket cs).ws = some cs.nextSocketId
  ∧ (connectWebSocket cs).ws ≠ cs.ws
  ∧ (connectWebSocket cs).wsState = some WsReadyState.CONNECTING
  ∧ (connectWebSocket cs).reconnectAttempts = cs.reconnectAttempts
  ∧ (connectWebSocket cs).connected = cs.connected
  ∧ (connectWebSocket cs).scheduled = cs.scheduled := by
  refine ⟨rfl, ?_, rfl, rfl, rfl, rfl⟩
  intro heq
  cases hws : cs.ws with
  | none => rw [hws] at heq; exact Option.noConfusion heq
  | some i =>
    have hi := h i hws
    rw [hws] at heq
    have : cs.nextSocketId = i := Option.some.inj heq
    omega

/-- Witness for the amended C3 at a state with an OPEN socket. -/
theorem open_no_guard_c3_amended_witness :
    (∀ i, openConnState.ws = some i → i < openConnState.nextSocketId) ∧
    ((connectWebSocket openConnState).ws = some openConnState.nextSocketId
      ∧ (connectWebSocket openConnState).ws ≠ openConnState.ws
      ∧ (connectWebSocket openConnState).wsState = some WsReadyState.CONNECTING
      ∧ (connectWebSocket openConnState).reconnectAttempts
          = openConnState.reconnectAttempts
      ∧ (connectWebSocket openConnState).connected = openConnState.connected
      ∧ (connectWebSocket openConnState).scheduled = openConnState.scheduled) :=
  ⟨by intro i hi; simp [openConnState] at hi ⊢; omega,
   open_no_guard_c3_amended openConnState
     (by intro i hi; simp [openConnState] at hi ⊢; omega)⟩

/-! ## Claim theorems: Message Dispatcher and conversation log -/

/-- C7: transcript(final) Hello then response yields exactly one turn
with that response; a second response before the next final transcript
overwrites the same turn; a response with an empty conversation log is
silently dropped. -/
theorem conversation_tail_c7 (st : AppState) (r2 : String)
    (h : st.conversationHistory = []) :
    (handleMessage (InMsg.response "Hi there")
        (handleMessage (InMsg.transcript "Hello" true) st)).conversationHistory
      = [{ user := "Hello", response := some "Hi there", timestamp := st.now }]
  ∧ (handleMessage (InMsg.response r2)
        (handleMessage (InMsg.response "Hi there")
          (handleMessage (InMsg.transcript "Hello" true) st))).conversationHistory
      = [{ user := "Hello", response := some r2, timestamp := st.now }]
  ∧ (handleMessage (InMsg.response r2) st).conversationHistory = [] := by
  simp [handleMessage, showTranscript, addToHistory, showResponse,
    updateHistoryResponse, h]

/-- Witness for C7 at the initial state. -/
theorem conversation_tail_c7_witness :
    initState.conversationHistory = [] ∧
    ((handleMessage (InMsg.response "Hi there")
        (handleMessage (InMsg.transcript "Hello" true) initState)).conversationHistory
      = [{ user := "Hello", response := some "Hi there", timestamp := initState.now }]
  ∧ (handleMessage (InMsg.response "Bye")
        (handleMessage (InMsg.response "Hi there")
          (handleMessage (InMsg.transcript "Hello" true) initState))).conversationHistory
      = [{ user := "Hello", response := some "Bye", timestamp := initState.now }]
  ∧ (handleMessage (InMsg.response "Bye") initState).conversationHistory = []) :=
  ⟨rfl, conversation_tail_c7 initState "Bye" rfl⟩

/-- C8: a frame whose type tag is none of the seven known variants
changes nothing at all (and the total dispatch function raises no
error). -/
theorem dispatch_unknown_c8 (m : InMsg) (st : AppState)
    (h : m.typeOf ∉ knownTypes) :
    handleMessage m st = st := by
  cases m <;>
    first
      | rfl
      | exact absurd (by simp [InMsg.typeOf, knownTypes]) h

/-- Witness for C8: a future_feature frame is a no-op on the initial
state. -/
theorem dispatch_unknown_c8_witness :
    (InMsg.other "future_feature").typeOf ∉ knownTypes ∧
    handleMessage (InMsg.other "future_feature") initState = initState :=
  ⟨by decide, dispatch_unknown_c8 (InMsg.other "future_feature") initState (by decide)⟩

/-- A stored now-playing snapshot used to exhibit the C9 behavior. -/
def c9NowPlaying : NowPlaying :=
  { is_podcast := false
    track_name := some "Track A"
    artist_name := some "Artist A"
    episode_name := none
    show_name := none
    image_url := none
    progress_ms := 0
    duration_ms := 0 }

/-- C9 counterexample: handling spotify with a null payload does not
clear the stored NowPlaying snapshot; the previously stored value
persists (updateNowPlaying returns early before the assignment). -/
theorem spotify_null_c9_counterexample :
    (updateNowPlaying none
        { initState with nowPlaying := some c9NowPlaying }).nowPlaying
      = some c9NowPlaying
  ∧ (updateNowPlaying none
        { initState with nowPlaying := some c9NowPlaying }).nowPlaying ≠ none := by
  decide

/-- C9 amended: a non-null spotify payload replaces the stored snapshot
wholesale; a null payload resets only the display cells and leaves the
stored snapshot unchanged. -/
theorem spotify_replace_c9_amended (st : AppState) (d : NowPlaying) :
    (updateNowPlaying (some d) st).nowPlaying = some d
  ∧ (updateNowPlaying none st).nowPlaying = st.nowPlaying
  ∧ (updateNowPlaying none st).trackName = "Not Playing"
  ∧ (updateNowPlaying none st).artistName = "Connect to Spotify" := by
  refine ⟨?_, rfl, rfl, rfl⟩
  unfold updateNowPlaying
  repeat' split
  all_goals simp_all

/-! ## Timer semantics helper lemmas -/

theorem updateState_currentState (s : String) (lvl : Option Nat) (st : AppState) :
    (updateState s lvl st).currentState = s := by
  unfold updateState visualizeAudioLevel
  cases lvl <;> repeat' split
  all_goals rfl

theorem updateState_pendingResets (s : String) (lvl : Option Nat) (st : AppState) :
    (updateState s lvl st).pendingResets = st.pendingResets := by
  unfold updateState visualizeAudioLevel
  cases lvl <;> repeat' split
  all_goals rfl

theorem fireDueResets_skip (t : Nat) (st : AppState)
    (h1 : st.pendingResets.filter (fun f => decide (f ≤ t)) = [])
    (h2 : st.pendingResets.filter (fun f => decide (t < f)) = st.pendingResets) :
    fireDueResets t st = st := by
  simp only [fireDueResets]
  rw [h1, h2]
  rfl

theorem fireDueResets_fire_one (t : Nat) (st : AppState) (f : Nat)
    (hp : st.pendingResets = [f]) (hd : f ≤ t) :
    fireDueResets t st = updateState "idle" none { st with pendingResets := [] } := by
  have hnd : ¬ t < f := by omega
  simp only [fireDueResets]
  rw [hp]
  simp [hd, hnd]

/-! ## Claim theorem: error auto-recovery (C4) -/

/-- C4: after an error frame at time 0, the assistant state is idle at
time 3000 when nothing else arrived; a state_update arriving at time u
inside the window is applied on arrival, and the 3-second idle reset
still fires at time 3000 (the showError timer is never cancelled). -/
theorem error_recovery_c4 (m s : String) (lvl : Option Nat) (u : Nat)
    (st : AppState) (hp : st.pendingResets = []) (h0 : 0 < u) (h3 : u < 3000) :
    (stateAt [(0, InMsg.error m)] st 3000).currentState = "idle"
  ∧ (stateAt [(0, InMsg.error m), (u, InMsg.state_update s lvl)] st u).currentState = s
  ∧ (stateAt [(0, InMsg.error m), (u, InMsg.state_update s lvl)] st 3000).currentState
      = "idle" := by
  have hfire0 : fireDueResets 0 st = st := by
    apply fireDueResets_skip <;> simp [hp]
  have hfu1 : List.filter (fun f => decide (f ≤ u)) [3000] = [] := by
    simp
    omega
  have hfu2 : List.filter (fun f => decide (u < f)) [3000] = [3000] := by
    simp
    omega
  have hrun1 : runEvents [(0, InMsg.error m)] st
      = { st with
          now := 0
          statusText := "Error"
          statusSubtitle := m
          pendingResets := [3000] } := by
    show handleMessage (InMsg.error m) { fireDueResets 0 st with now := 0 } = _
    rw [hfire0]
    show showError m { st with now := 0 } = _
    simp [showError, hp]
  have hrun2 : runEvents [(0, InMsg.error m), (u, InMsg.state_update s lvl)] st
      = updateState s lvl
          { st with
            now := u
            statusText := "Error"
            statusSubtitle := m
            pendingResets := [3000] } := by
    show runEvents [(u, InMsg.state_update s lvl)]
        (handleMessage (InMsg.error m) { fireDueResets 0 st with now := 0 }) = _
    rw [hfire0]
    have hE : showError m { st with now := 0 }
        = { st with
            now := 0
            statusText := "Error"
            statusSubtitle := m
            pendingResets := [3000] } := by
      simp [showError, hp]
    show runEvents [(u, InMsg.state_update s lvl)] (showError m { st with now := 0 }) = _
    rw [hE]
    show handleMessage (InMsg.state_update s lvl)
        { fireDueResets u
            { st with
              now := 0
              statusText := "Error"
              statusSubtitle := m
              pendingResets := [3000] } with now := u } = _
    rw [fireDueResets_skip u _ (by exact hfu1) (by exact hfu2)]
    rfl
  refine ⟨?_, ?_, ?_⟩
  · have hfl1 : List.filter (fun e => decide (e.1 ≤ 3000))
        [((0 : Nat), InMsg.error m)] = [(0, InMsg.error m)] := by
      simp
    show (fireDueResets 3000 (runEvents (List.filter
        (fun e => decide (e.1 ≤ 3000)) [(0, InMsg.error m)]) st)).currentState = "idle"
    rw [hfl1, hrun1,
      fireDueResets_fire_one 3000 _ 3000 rfl (by omega),
      updateState_currentState]
  · have hfl2 : List.filter (fun e => decide (e.1 ≤ u))
        [((0 : Nat), InMsg.error m), (u, InMsg.state_update s lvl)]
        = [(0, InMsg.error m), (u, InMsg.state_update s lvl)] := by
      simp
    show (fireDueResets u (runEvents (List.filter (fun e => decide (e.1 ≤ u))
        [(0, InMsg.error m), (u, InMsg.state_update s lvl)]) st)).currentState = s
    rw [hfl2, hrun2,
      fireDueResets_skip u _
        (by rw [updateState_pendingResets]; exact hfu1)
        (by rw [updateState_pendingResets]; exact hfu2)]
    exact updateState_currentState s lvl _
  · have hfl3 : List.filter (fun e => decide (e.1 ≤ 3000))
        [((0 : Nat), InMsg.error m), (u, InMsg.state_update s lvl)]
        = [(0, InMsg.error m), (u, InMsg.state_update s lvl)] := by
      simp
      omega
    show (fireDueResets 3000 (runEvents (List.filter (fun e => decide (e.1 ≤ 3000))
        [(0, InMsg.error m), (u, InMsg.state_update s lvl)]) st)).currentState = "idle"
    rw [hfl3, hrun2,
      fireDueResets_fire_one 3000 _ 3000
        (by rw [updateState_pendingResets]) (by omega),
      updateState_currentState]

/-- Witness for C4: error at 0, state_update speaking at 1000, observed
at 1000 and at 3000. -/
theorem error_recovery_c4_witness :
    (initState.pendingResets = [] ∧ 0 < 1000 ∧ 1000 < 3000) ∧
    ((stateAt [(0, InMsg.error "boom")] initState 3000).currentState = "idle"
  ∧ (stateAt [(0, InMsg.error "boom"), (1000, InMsg.state_update "speaking" none)]
        initState 1000).currentState = "speaking"
  ∧ (stateAt [(0, InMsg.error "boom"), (1000, InMsg.state_update "speaking" none)]
        initState 3000).currentState = "idle") :=
  ⟨⟨rfl, by decide, by decide⟩,
   error_recovery_c4 "boom" "speaking" none 1000 initState rfl (by decide) (by decide)⟩

/-! ## Decoder helper lemmas -/

theorem hexDigitVal?_bounds (c : Char) (v : Nat) (h : hexDigitVal? c = some v) :
    ((48 ≤ c.toNat ∧ c.toNat ≤ 57) ∨ (97 ≤ c.toNat ∧ c.toNat ≤ 102) ∨
      (65 ≤ c.toNat ∧ c.toNat ≤ 70)) ∧ v < 16 := by
  unfold hexDigitVal? at h
  split_ifs at h with h1 h2 h3
  · simp at h1
    refine ⟨Or.inl h1, ?_⟩
    have := Option.some.inj h
    omega
  · simp at h2
    refine ⟨Or.inr (Or.inl h2), ?_⟩
    have := Option.some.inj h
    omega
  · simp at h3
    refine ⟨Or.inr (Or.inr h3), ?_⟩
    have := Option.some.inj h
    omega

theorem hexDigit_not_ws (c : Char) (v : Nat) (h : hexDigitVal? c = some v) :
    isJsWhitespace c = false := by
  obtain ⟨hb, _⟩ := hexDigitVal?_bounds c v h
  simp [isJsWhitespace]
  rcases hb with ⟨h1, h2⟩ | ⟨h1, h2⟩ | ⟨h1, h2⟩ <;> omega

theorem hexDigit_not_lineTerm (c : Char) (v : Nat) (h : hexDigitVal? c = some v) :
    isLineTerm c = false := by
  obtain ⟨hb, _⟩ := hexDigitVal?_bounds c v h
  simp [isLineTerm]
  rcases hb with ⟨h1, h2⟩ | ⟨h1, h2⟩ | ⟨h1, h2⟩ <;> omega

theorem hexDigit_ne_sign (c : Char) (v : Nat) (h : hexDigitVal? c = some v) :
    ¬ c = '-' ∧ ¬ c = '+' := by
  obtain ⟨hb, _⟩ := hexDigitVal?_bounds c v h
  constructor <;> rintro rfl <;> revert hb <;> decide

theorem parseIntHex16_single (c : Char) (v : Nat) (h : hexDigitVal? c = some v) :
    parseIntHex16 [c] = some (v : Int) := by
  have hws := hexDigit_not_ws c v h
  obtain ⟨hm, hp⟩ := hexDigit_ne_sign c v h
  unfold parseIntHex16
  simp [List.dropWhile, hws, hm, hp, parseHexDigits, h, hexAccum]

theorem toUint8_small (b : Nat) (h : b < 256) : toUint8 (some (b : Int)) = b := by
  simp [toUint8]
  omega

theorem parseIntHex16_pair_fin :
    ∀ a b : Fin 16, parseIntHex16 [hexChar a.val, hexChar b.val]
      = some ((16 * a.val + b.val : Nat) : Int) := by decide

theorem hexChar_not_lineTerm_fin :
    ∀ n : Fin 16, isLineTerm (hexChar n.val) = false := by decide

theorem jsMatchChunks_cons_cons (c d : Char) (l : List Char)
    (hc : isLineTerm c = false) (hd : isLineTerm d = false) :
    jsMatchChunks (c :: d :: l) = [c, d] :: jsMatchChunks l := by
  simp [jsMatchChunks, hc, hd]

theorem decode_encode_chunks : ∀ bytes : List Nat, (∀ b ∈ bytes, b < 256) →
    jsMatchChunks (encodeHexBytes bytes).data
      = bytes.map (fun b => [hexChar (b / 16), hexChar (b % 16)]) := by
  intro bytes
  induction bytes with
  | nil => intro _; rfl
  | cons b rest ih =>
    intro hb
    have hb0 : b < 256 := hb b (by simp)
    have h1 : b / 16 < 16 := by omega
    have h2 : b % 16 < 16 := by omega
    show jsMatchChunks (hexChar (b / 16) :: hexChar (b % 16) ::
      (encodeHexBytes rest).data) = _
    rw [jsMatchChunks_cons_cons _ _ _
        (hexChar_not_lineTerm_fin ⟨b / 16, h1⟩)
        (hexChar_not_lineTerm_fin ⟨b % 16, h2⟩),
      ih (fun x hx => hb x (List.mem_cons_of_mem _ hx))]
    rfl

theorem decode_pair_val (b : Nat) (hb : b < 256) :
    toUint8 (parseIntHex16 [hexChar (b / 16), hexChar (b % 16)]) = b := by
  have h1 : b / 16 < 16 := by omega
  have h2 : b % 16 < 16 := by omega
  have hpf := parseIntHex16_pair_fin ⟨b / 16, h1⟩ ⟨b % 16, h2⟩
  rw [show ((⟨b / 16, h1⟩ : Fin 16)).val = b / 16 from rfl,
    show ((⟨b % 16, h2⟩ : Fin 16)).val = b % 16 from rfl] at hpf
  rw [hpf, show 16 * (b / 16) + b % 16 = b by omega]
  exact toUint8_small b hb

/-- Spec characterization of the chunking on clean input: adjacent pairs,
a lone trailing character kept as a one-character chunk. -/
def pairChunks : List Char → List (List Char)
  | [] => []
  | [c] => [[c]]
  | c :: d :: rest => [c, d] :: pairChunks rest

theorem jsMatchChunks_eq_pairChunks : ∀ l : List Char,
    (∀ c ∈ l, isLineTerm c = false) → jsMatchChunks l = pairChunks l := by
  intro l
  induction l using pairChunks.induct with
  | case1 => intro _; rfl
  | case2 c => intro h; simp [jsMatchChunks, pairChunks, h c (by simp)]
  | case3 c d rest ih =>
    intro h
    rw [jsMatchChunks_cons_cons c d rest (h c (by simp)) (h d (by simp))]
    show [c, d] :: jsMatchChunks rest = [c, d] :: pairChunks rest
    rw [ih (fun x hx => h x (by simp [hx]))]

theorem pairChunks_length : ∀ l : List Char,
    (pairChunks l).length = (l.length + 1) / 2 := by
  intro l
  induction l using pairChunks.induct with
  | case1 => rfl
  | case2 c => simp [pairChunks]
  | case3 c d rest ih =>
    show (pairChunks rest).length + 1 = _
    rw [ih]
    show (rest.length + 1) / 2 + 1 = (rest.length + 1 + 1 + 1) / 2
    omega

theorem pairChunks_ne_nil (l : List Char) (hl : l ≠ []) : pairChunks l ≠ [] := by
  cases l with
  | nil => exact absurd rfl hl
  | cons c rest => cases rest <;> simp [pairChunks]

theorem pairChunks_getLast_odd : ∀ l : List Char, l.length % 2 = 1 →
    (pairChunks l).getLast? = l.getLast?.map (fun c => [c]) := by
  intro l
  induction l using pairChunks.induct with
  | case1 => intro h; simp at h
  | case2 c => intro _; rfl
  | case3 c d rest ih =>
    intro h
    have hrest : rest.length % 2 = 1 := by
      simp at h
      omega
    have hne : rest ≠ [] := by
      intro h0
      rw [h0] at hrest
      simp at hrest
    have ihv := ih hrest
    obtain ⟨y, ys, hy⟩ := List.exists_cons_of_ne_nil hne
    obtain ⟨x, xs, hx⟩ := List.exists_cons_of_ne_nil (pairChunks_ne_nil rest hne)
    rw [hy] at ihv hx ⊢
    show ([c, d] :: pairChunks (y :: ys)).getLast? = _
    rw [hx, List.getLast?_cons_cons, ← hx, ihv,
      List.getLast?_cons_cons, List.getLast?_cons_cons]

theorem decode_single_val (c : Char) (v : Nat) (h : hexDigitVal? c = some v) :
    toUint8 (parseIntHex16 [c]) = v := by
  rw [parseIntHex16_single c v h]
  exact toUint8_small v (by have := (hexDigitVal?_bounds c v h).2; omega)

/-! ## Claim theorems: Audio Decoder -/

/-- C5 counterexample: the payload zz contains only a malformed pair,
yet decoding does not fail (parseInt yields NaN, coerced to byte 0) and
playback is started with that byte, not abandoned. -/
theorem audio_malformed_c5_counterexample :
    jsDecodeHex "zz" = some [0]
  ∧ playAudio "zz" initState = { initState with audioSrc := some [0] }
  ∧ (playAudio "zz" initState).audioSrc ≠ initState.audioSrc := by decide

/-- C5 amended: a payload with at least one matchable character never
fails to decode, malformed pairs included: each pair is coerced by
parseInt semantics (0 when no hex prefix) and playback is started with
the coerced bytes; later audio frames are handled independently of the
earlier frame. -/
theorem audio_malformed_c5_amended (s : String) (st : AppState)
    (h : jsMatchChunks s.data ≠ []) :
    (∃ bs, jsDecodeHex s = some bs
      ∧ playAudio s st = { st with audioSrc := some bs })
  ∧ ∀ s2 bs2, jsDecodeHex s2 = some bs2 →
      (playAudio s2 (playAudio s st)).audioSrc = some bs2 := by
  constructor
  · cases hc : jsMatchChunks s.data with
    | nil => exact absurd hc h
    | cons a as =>
      refine ⟨(a :: as).map (fun ch => toUint8 (parseIntHex16 ch)), ?_, ?_⟩
      · unfold jsDecodeHex
        rw [hc]
      · unfold playAudio jsDecodeHex
        rw [hc]
  · intro s2 bs2 h2
    unfold playAudio
    rw [h2]

/-- Witness for the amended C5 at payload zz. -/
theorem audio_malformed_c5_amended_witness :
    jsMatchChunks ("zz").data ≠ [] ∧
    ((∃ bs, jsDecodeHex "zz" = some bs
        ∧ playAudio "zz" initState = { initState with audioSrc := some bs })
      ∧ ∀ s2 bs2, jsDecodeHex s2 = some bs2 →
          (playAudio s2 (playAudio "zz" initState)).audioSrc = some bs2) :=
  ⟨by decide, audio_malformed_c5_amended "zz" initState (by decide)⟩

/-- C6 counterexample: the empty byte sequence round-trips to a decode
failure, not to itself (match returns null on the empty string and the
decoder throws before producing an empty byte array). -/
theorem decode_roundtrip_c6_counterexample :
    jsDecodeHex (encodeHexBytes []) = none
  ∧ jsDecodeHex (encodeHexBytes []) ≠ some [] := by decide

/-- C6 amended: for every non-empty byte sequence the decoder inverts
the even-length hex encoding exactly; in particular 4d5033 decodes to
the bytes 77, 80, 51. -/
theorem decode_roundtrip_c6_amended (bytes : List Nat) (hne : bytes ≠ [])
    (hb : ∀ b ∈ bytes, b < 256) :
    jsDecodeHex (encodeHexBytes bytes) = some bytes
  ∧ jsDecodeHex "4d5033" = some [77, 80, 51] := by
  refine ⟨?_, by decide⟩
  have hch := decode_encode_chunks bytes hb
  have hmap : (jsMatchChunks (encodeHexBytes bytes).data).map
      (fun ch => toUint8 (parseIntHex16 ch)) = bytes := by
    rw [hch, List.map_map]
    conv_rhs => rw [← List.map_id bytes]
    apply List.map_congr_left
    intro b hbm
    show toUint8 (parseIntHex16 [hexChar (b / 16), hexChar (b % 16)]) = b
    exact decode_pair_val b (hb b hbm)
  unfold jsDecodeHex
  cases hcc : jsMatchChunks (encodeHexBytes bytes).data with
  | nil =>
    rw [hch] at hcc
    simp at hcc
    exact absurd hcc hne
  | cons a as =>
    have hmap2 : (a :: as).map (fun ch => toUint8 (parseIntHex16 ch)) = bytes := by
      rw [← hcc]
      exact hmap
    show some ((a :: as).map (fun ch => toUint8 (parseIntHex16 ch))) = some bytes
    rw [hmap2]

/-- Witness for the amended C6 on the bytes 77, 80, 51. -/
theorem decode_roundtrip_c6_amended_witness :
    (([77, 80, 51] : List Nat) ≠ [] ∧ ∀ b ∈ ([77, 80, 51] : List Nat), b < 256) ∧
    (jsDecodeHex (encodeHexBytes [77, 80, 51]) = some [77, 80, 51]
      ∧ jsDecodeHex "4d5033" = some [77, 80, 51]) :=
  ⟨⟨by decide, by decide⟩,
   decode_roundtrip_c6_amended [77, 80, 51] (by decide) (by decide)⟩

/-- C10: an odd-length string of hex digits decodes without failure into
one byte per pair plus a final byte that is the value of the lone
trailing digit. -/
theorem decode_odd_c10 (s : String)
    (hodd : s.data.length % 2 = 1)
    (hhex : ∀ c ∈ s.data, (hexDigitVal? c).isSome = true) :
    ∃ bs, jsDecodeHex s = some bs
      ∧ bs.length = (s.data.length + 1) / 2
      ∧ bs.getLast? = s.data.getLast?.map (fun c => (hexDigitVal? c).getD 0) := by
  have hlt : ∀ c ∈ s.data, isLineTerm c = false := by
    intro c hc
    obtain ⟨v, hv⟩ := Option.isSome_iff_exists.mp (hhex c hc)
    exact hexDigit_not_lineTerm c v hv
  have hch : jsMatchChunks s.data = pairChunks s.data :=
    jsMatchChunks_eq_pairChunks s.data hlt
  have hne : s.data ≠ [] := by
    intro h0
    rw [h0] at hodd
    simp at hodd
  have hpne : pairChunks s.data ≠ [] := pairChunks_ne_nil s.data hne
  refine ⟨(pairChunks s.data).map (fun ch => toUint8 (parseIntHex16 ch)),
    ?_, ?_, ?_⟩
  · unfold jsDecodeHex
    rw [hch]
    cases hpc : pairChunks s.data with
    | nil => exact absurd hpc hpne
    | cons a as => rfl
  · rw [List.length_map, pairChunks_length]
  · rw [List.getLast?_map _ _, pairChunks_getLast_odd s.data hodd]
    cases hl : s.data.getLast? with
    | none => rfl
    | some c =>
      have hmem : c ∈ s.data := List.mem_of_getLast?_eq_some hl
      obtain ⟨v, hv⟩ := Option.isSome_iff_exists.mp (hhex c hmem)
      simp [decode_single_val c v hv, hv]

/-- Witness for C10 at the payload 4d5. -/
theorem decode_odd_c10_witness :
    (("4d5").data.length % 2 = 1 ∧ ∀ c ∈ ("4d5").data, (hexDigitVal? c).isSome = true) ∧
    (∃ bs, jsDecodeHex "4d5" = some bs
      ∧ bs.length = (("4d5").data.length + 1) / 2
      ∧ bs.getLast? = ("4d5").data.getLast?.map (fun c => (hexDigitVal? c).getD 0)) :=
  ⟨⟨by decide, by decide⟩, decode_odd_c10 "4d5" (by decide) (by decide)⟩

end NeonRaspi
